import Mathlib

/-!
Shallow embedding of the balance-synchronization engine of `src/app.py`
(a Solana wallet tracker).  Python floats are modelled as `ℚ` (every value
the engine manipulates arises from integer minor units divided by `1e9`,
or from wall-clock timestamps; comparisons in the code are `<`, `!=`),
timestamps as `ℚ` seconds, and the network as an explicit environment:
one `Option ℤ` per endpoint of `RPC_ENDPOINTS` in order (`some lam` = a
well-formed success carrying the integer lamport value, `none` = any
transport error, non-ok status or malformed payload), and for history a
signature listing plus per-signature detail records.  Fallible Python
code (raises caught by `try`) is modelled with `Option`/`Except`.
-/

/-- The global `balance_cache` dictionary: address ↦ (balance, observedAt).
`balance_cache = {}` in the source; entries are written by
`balance_cache[wallet_address] = (balance, current_time)`. -/
def Cache : Type := String → Option (ℚ × ℚ)

/-- The empty cache (`balance_cache = {}`). -/
def Cache.empty : Cache := fun _ => none

/-- The cache write `balance_cache[wallet_address] = (balance, current_time)`
at line 120 of `src/app.py`: a plain dict assignment, replacing whatever
entry was stored for that address. -/
def Cache.put (c : Cache) (addr : String) (v t : ℚ) : Cache :=
  fun a => if a = addr then some (v, t) else c a

/-- The TTL `balance_cache_timeout = 0.5` (seconds). -/
def balance_cache_timeout : ℚ := 1/2

/-- The freshness test of lines 90-93: an entry is served iff it exists and
`current_time - cache_time < balance_cache_timeout`. -/
def cache_lookup (c : Cache) (addr : String) (now : ℚ) : Option ℚ :=
  match c addr with
  | some (v, t) => if now - t < balance_cache_timeout then some v else none
  | none => none

/-- The character set of `validate_solana_address`, line 81: every character
in the base-58 set `'123456789ABCDEFGHJKLMNPQRSTUVWXYZabcdefghijkmnopqrstuvwxyz'`. -/
def valid_chars : List Char :=
  "123456789ABCDEFGHJKLMNPQRSTUVWXYZabcdefghijkmnopqrstuvwxyz".data

/-- The validator `validate_solana_address(address)`: `False` on empty / length outside
[32,44], else `all(c in valid_chars for c in address)`. -/
def validate_solana_address (address : String) : Bool :=
  if address = "" || address.length < 32 || address.length > 44 then false
  else address.data.all (fun c => valid_chars.contains c)

/-- Errors `get_wallet_balance` can raise: line 97
(`Invalid Solana wallet address format`) and line 128
(`Failed to fetch balance from all RPC endpoints`). -/
inductive FetchError where
  | invalidAddress
  | allEndpointsFailed
  deriving Repr, DecidableEq

/-- Result of one `get_wallet_balance` call: the returned value or raised
error, the cache state after the call, and how many endpoint requests were
issued. -/
structure FetchOut where
  result : Except FetchError ℚ
  cache : Cache
  netCalls : ℕ

/-- The endpoint loop of lines 100-123: try each endpoint of
`RPC_ENDPOINTS` in order, stopping at the first well-formed success;
returns the lamport value of that success (or `none`) and the number of
requests issued. -/
def tryEndpoints : List (Option ℤ) → Option ℤ × ℕ
  | [] => (none, 0)
  | some lam :: _ => (some lam, 1)
  | none :: rest =>
    let r := tryEndpoints rest
    (r.1, r.2 + 1)

/-- The fetch `get_wallet_balance(wallet_address)`, lines 86-134.  In source order:
(1) serve the cache if the entry is fresh (lines 88-93); (2) validate the
address, raising `invalidAddress` (lines 95-97) — but the outer `except`
of lines 130-134 turns that raise into the stale cached value whenever any
entry exists; (3) try each endpoint, on the first success store
`value/1e9` in the cache with the `current_time` captured at call entry
and return it (lines 99-123); (4) if all endpoints failed, return any
cached entry, else raise `allEndpointsFailed` (lines 125-128, re-raised
unchanged by the outer `except` since the cache was not written). -/
def get_wallet_balance (c : Cache) (addr : String) (now : ℚ)
    (net : List (Option ℤ)) : FetchOut :=
  match cache_lookup c addr now with
  | some v => ⟨.ok v, c, 0⟩
  | none =>
    if validate_solana_address addr then
      match tryEndpoints net with
      | (some lam, n) =>
        let balance : ℚ := (lam : ℚ) / 1000000000
        ⟨.ok balance, c.put addr balance now, n⟩
      | (none, n) =>
        match c addr with
        | some (v, _) => ⟨.ok v, c, n⟩
        | none => ⟨.error .allEndpointsFailed, c, n⟩
    else
      match c addr with
      | some (v, _) => ⟨.ok v, c, 0⟩
      | none => ⟨.error .invalidAddress, c, 0⟩

/-- Direction tag of a history entry (`type` field, lines 222/227). -/
inductive TxDirection where
  | incoming
  | outgoing
  deriving Repr, DecidableEq

/-- One element of the list `get_wallet_transactions` returns
(lines 235-242). -/
structure Transaction where
  signature : String
  direction : TxDirection
  amount : ℚ
  sender : String
  recipient : String
  timestamp : ℤ
  deriving Repr, DecidableEq

/-- The parts of a `getTransaction` result the code reads: `meta`
(`preBalances`, `postBalances`), `transaction` (the `accountKeys` pubkey
list), `blockTime`.  `none` models an absent/falsy field (line 203 skips
the record in that case). -/
structure TxRecord where
  meta : Option (List ℤ × List ℤ)
  transaction : Option (List String)
  blockTime : Option ℤ

/-- The per-record body of the signature loop, lines 202-242: skip when
`meta`/`transaction` are missing, when the queried address is not among
the `accountKeys` (lines 210-217), or when indexing the balance arrays
raises (caught by the per-signature `except`, line 244); otherwise compute
`balance_change = (post - pre)/1e9`, classify positive as `incoming`
(amount = change) and the rest as `outgoing` (amount = `abs(change)`),
drop the entry when the amount is 0 (lines 232-233); counterparty is
`account_keys[1]` or `'Unknown'` (lines 224/230); timestamp is
`blockTime * 1000` with 0 for a missing `blockTime` (line 241). -/
def process_transaction (wallet_address sig : String) (tx : TxRecord) :
    Option Transaction :=
  match tx.meta, tx.transaction with
  | some (pre_balances, post_balances), some account_keys =>
    match account_keys.findIdx? (fun key => key = wallet_address) with
    | none => none
    | some account_index =>
      match post_balances[account_index]?, pre_balances[account_index]? with
      | some post, some pre =>
        let balance_change : ℚ := ((post : ℚ) - (pre : ℚ)) / 1000000000
        let counterparty := account_keys.getD 1 "Unknown"
        let r : Transaction :=
          if balance_change > 0 then
            ⟨sig, .incoming, balance_change, counterparty, wallet_address,
              tx.blockTime.getD 0 * 1000⟩
          else
            ⟨sig, .outgoing, |balance_change|, wallet_address, counterparty,
              tx.blockTime.getD 0 * 1000⟩
        if r.amount = 0 then none else some r
      | _, _ => none
  | _, _ => none

/-- The history fetch `get_wallet_transactions(wallet_address)`, lines 136-250.  `sigResp`
models the `getSignaturesForAddress` call against the primary endpoint:
`none` is any whole-call failure (non-ok response, `error` in the payload,
missing/falsy `result`, or an exception, all of which return `[]`);
`details` models the per-signature `getTransaction` calls, `none` being
any failure (non-ok, `error`, falsy `result`, or an exception), which
`continue`s past that one signature. -/
def get_wallet_transactions (wallet_address : String)
    (sigResp : Option (List String)) (details : String → Option TxRecord) :
    List Transaction :=
  match sigResp with
  | none => []
  | some signatures =>
    signatures.filterMap
      (fun sig => (details sig).bind (process_transaction wallet_address sig))

/-- The change test of line 321, `balance != wallet.last_balance`
(spec: `ChangeDetector.hasChanged`): strict inequality, no tolerance. -/
def hasChanged (previous current : ℚ) : Bool :=
  decide (current ≠ previous)

/-- The fields of a `TrackedWallet` row the poll loop reads and writes. -/
structure Wallet where
  address : String
  last_balance : ℚ
  last_updated : ℚ
  is_active : Bool
  deriving Repr, DecidableEq

/-- The `type` tag `broadcast_wallet_update` attaches to an emitted event. -/
inductive EventKind where
  | balance_update
  deriving Repr, DecidableEq

/-- A broadcast `wallet_update` event as the poll loop emits it (address,
new balance, `'balance_update'` tag). -/
structure ChangeEvent where
  address : String
  newBalance : ℚ
  kind : EventKind
  deriving Repr, DecidableEq

/-- The inner `update_wallet(wallet)` of `update_wallet_balances`,
lines 318-335: fetch the balance (`fetch` returns `none` when
`get_wallet_balance` raised; the `except` of line 334 then does nothing);
when it differs from `last_balance`, write the new balance and timestamp
back and broadcast one `balance_update` event; otherwise do nothing. -/
def update_wallet (now : ℚ) (fetch : String → Option ℚ) (w : Wallet) :
    Wallet × List ChangeEvent :=
  match fetch w.address with
  | none => (w, [])
  | some balance =>
    if hasChanged w.last_balance balance then
      ({ w with last_balance := balance, last_updated := now },
       [⟨w.address, balance, .balance_update⟩])
    else (w, [])

/-- One cycle of `update_wallet_balances`, lines 308-338: query the active
wallets and run `update_wallet` on each (the thread-pool `executor.map`);
returns the registry after the cycle and the events broadcast during it. -/
def update_wallet_balances (now : ℚ) (fetch : String → Option ℚ)
    (registry : List Wallet) : List Wallet × List ChangeEvent :=
  (registry.map (fun w => if w.is_active then (update_wallet now fetch w).1 else w),
   (registry.filter (fun w => w.is_active)).flatMap
     (fun w => (update_wallet now fetch w).2))

/-- Cache states reachable through the public interface: starting empty,
every transition is a `get_wallet_balance` call (the only code that writes
`balance_cache`). -/
inductive ReachableCache : Cache → Prop where
  | empty : ReachableCache Cache.empty
  | fetch (c : Cache) (addr : String) (now : ℚ) (net : List (Option ℤ)) :
      ReachableCache c → ReachableCache (get_wallet_balance c addr now net).cache

/-! ## Helper lemmas -/

/-- Every character of the base-58 set is alphanumeric and is none of
`0`, `O`, `I`, `l`. -/
theorem mem_valid_chars_isAlphanum (c : Char) (h : valid_chars.contains c = true) :
    c.isAlphanum ∧ c ∉ ['0', 'O', 'I', 'l'] := by
  have hall : ∀ x ∈ valid_chars,
      x.isAlphanum = true ∧ x ∉ (['0', 'O', 'I', 'l'] : List Char) := by decide
  have hmem : c ∈ valid_chars := by simpa using h
  exact hall c hmem

/-! ## Claims -/

/-- C9: `validate_solana_address` fails closed: it returns `false` on the
empty string, on every string whose length falls outside [32, 44], and on
every string containing a character outside the base-58 alphabet (the
alphanumerics minus `0`, `O`, `I`, `l`).  It is a pure function of its
argument (modelled as such). -/
theorem c9_validator_fails_closed (s : String) :
    (s = "" → validate_solana_address s = false) ∧
    (s.length < 32 ∨ s.length > 44 → validate_solana_address s = false) ∧
    ((∃ c ∈ s.data, ¬(c.isAlphanum ∧ c ∉ ['0', 'O', 'I', 'l'])) →
      validate_solana_address s = false) := by
  refine ⟨?_, ?_, ?_⟩
  · rintro rfl
    rfl
  · intro h
    unfold validate_solana_address
    rcases h with h | h <;> simp [h]
  · rintro ⟨c, hc, hbad⟩
    have hnc : valid_chars.contains c = false := by
      by_contra hcc
      exact hbad (mem_valid_chars_isAlphanum c (by simpa using hcc))
    unfold validate_solana_address
    split
    · rfl
    · cases hall : s.data.all (fun c => valid_chars.contains c)
      · rfl
      · exfalso
        have := List.all_eq_true.mp hall c hc
        rw [hnc] at this
        exact Bool.false_ne_true this

/-- C9 witness: a 31-character string (length below 32) is rejected. -/
theorem c9_validator_fails_closed_witness :
    validate_solana_address "1111111111111111111111111111111" = false :=
  (c9_validator_fails_closed "1111111111111111111111111111111").2.1 (Or.inl (by decide))

/-- C4: the change detector (`balance != wallet.last_balance`) is strict
inequality: `hasChanged x x = false` for every value `x`, and
`hasChanged x y = true` whenever `x ≠ y`. -/
theorem c4_change_detector_strict (x y : ℚ) :
    hasChanged x x = false ∧ (x ≠ y → hasChanged x y = true) := by
  constructor
  · simp [hasChanged]
  · intro h
    simp [hasChanged]
    exact fun hyx => h hyx.symm

/-- C4 witness: `hasChanged 1 2 = true` and `hasChanged 1 1 = false`. -/
theorem c4_change_detector_strict_witness :
    hasChanged 1 1 = false ∧ hasChanged 1 2 = true :=
  ⟨(c4_change_detector_strict 1 2).1,
   (c4_change_detector_strict 1 2).2 (by norm_num)⟩

/-- C2 counterexample: the cache write is an unconditional dict
assignment.  Starting from an entry with `observedAt = 10`, a write with
the older `observedAt = 5` is *not* discarded: the stored entry becomes
`(2, 5)`, so the stored `observedAt` decreases. -/
theorem c2_counterexample :
    (5 : ℚ) ≤ 10 ∧
    Cache.put (Cache.put Cache.empty "addr" 1 10) "addr" 2 5 "addr" = some (2, 5) := by
  constructor
  · norm_num
  · rfl

/-- C2 amended: a `put` unconditionally stores `(value, observedAt)` for
the address, replacing any existing entry regardless of the stored
entry's `observedAt` (no last-writer-wins comparison is performed); other
addresses are untouched. -/
theorem c2_put_unconditional (c : Cache) (addr : String) (v t : ℚ) :
    Cache.put c addr v t addr = some (v, t) ∧
    ∀ a, a ≠ addr → Cache.put c addr v t a = c a := by
  constructor
  · simp [Cache.put]
  · intro a ha
    simp [Cache.put, ha]

/-- C2 amended witness: a concrete overwrite plus an untouched address. -/
theorem c2_put_unconditional_witness :
    Cache.put (Cache.put Cache.empty "aa" 1 10) "aa" 2 5 "aa" = some (2, 5) ∧
    Cache.put Cache.empty "aa" 1 10 "bb" = Cache.empty "bb" :=
  ⟨(c2_put_unconditional (Cache.put Cache.empty "aa" 1 10) "aa" 2 5).1,
   (c2_put_unconditional Cache.empty "aa" 1 10).2 "bb" (by decide)⟩

/-- C3 counterexample: `get_wallet_balance` consults the cache *before*
validating the address (lines 88-93 precede lines 95-97).  With a cache
entry present for the syntactically invalid address `"short"`, the call
returns the cached value 7 with no network call instead of failing with
`invalidAddress`. -/
theorem c3_counterexample :
    validate_solana_address "short" = false ∧
    get_wallet_balance (Cache.put Cache.empty "short" 7 0) "short" 0 [] =
      ⟨.ok 7, Cache.put Cache.empty "short" 7 0, 0⟩ := by
  constructor
  · decide
  · have hfresh : ((0 : ℚ) < balance_cache_timeout) := by
      norm_num [balance_cache_timeout]
    have h : cache_lookup (Cache.put Cache.empty "short" 7 0) "short" 0 = some 7 := by
      simp [cache_lookup, Cache.put, hfresh]
    simp [get_wallet_balance, h]

/-- C3 amended: for every input failing `validate_solana_address`, *if the
cache holds no entry for that input*, `get_wallet_balance` fails with
`invalidAddress`, leaves the cache unchanged, and makes no network call.
(When a cache entry for the invalid input exists — which C10 shows cannot
arise through the public interface — the cached value is returned
instead.) -/
theorem c3_invalid_address_rejected (c : Cache) (addr : String) (now : ℚ)
    (net : List (Option ℤ))
    (hinv : validate_solana_address addr = false)
    (hnone : c addr = none) :
    get_wallet_balance c addr now net = ⟨.error .invalidAddress, c, 0⟩ := by
  have h : cache_lookup c addr now = none := by
    simp [cache_lookup, hnone]
  simp [get_wallet_balance, h, hinv, hnone]

/-- C3 amended witness: the invalid address `"short"` against the empty
cache fails with `invalidAddress` and zero network calls. -/
theorem c3_invalid_address_rejected_witness :
    get_wallet_balance Cache.empty "short" 0 [some 5] =
      ⟨.error .invalidAddress, Cache.empty, 0⟩ :=
  c3_invalid_address_rejected Cache.empty "short" 0 [some 5] (by decide) rfl

/-- When the balance delta at the queried address's position is positive,
the record is classified `incoming` with the delta as the amount. -/
theorem process_transaction_pos (addr sig : String) (pre post : List ℤ)
    (keys : List String) (bt : Option ℤ) (i : ℕ) (p q : ℤ)
    (hi : keys.findIdx? (fun key => key = addr) = some i)
    (hq : post[i]? = some q) (hp : pre[i]? = some p)
    (hpos : ((q : ℚ) - p) / 1000000000 > 0) :
    process_transaction addr sig ⟨some (pre, post), some keys, bt⟩ =
      some ⟨sig, .incoming, ((q : ℚ) - p) / 1000000000, keys.getD 1 "Unknown",
            addr, bt.getD 0 * 1000⟩ := by
  simp only [process_transaction, hi, hq, hp]
  rw [if_pos hpos, if_neg]
  exact ne_of_gt hpos

/-- When the delta is negative, the record is classified `outgoing` with
the absolute delta as the amount. -/
theorem process_transaction_neg (addr sig : String) (pre post : List ℤ)
    (keys : List String) (bt : Option ℤ) (i : ℕ) (p q : ℤ)
    (hi : keys.findIdx? (fun key => key = addr) = some i)
    (hq : post[i]? = some q) (hp : pre[i]? = some p)
    (hneg : ((q : ℚ) - p) / 1000000000 < 0) :
    process_transaction addr sig ⟨some (pre, post), some keys, bt⟩ =
      some ⟨sig, .outgoing, |((q : ℚ) - p) / 1000000000|, addr,
            keys.getD 1 "Unknown", bt.getD 0 * 1000⟩ := by
  simp only [process_transaction, hi, hq, hp]
  rw [if_neg (not_lt_of_gt hneg), if_neg]
  simpa using ne_of_lt hneg

/-- When the delta is zero, the record is dropped. -/
theorem process_transaction_zero (addr sig : String) (pre post : List ℤ)
    (keys : List String) (bt : Option ℤ) (i : ℕ) (p q : ℤ)
    (hi : keys.findIdx? (fun key => key = addr) = some i)
    (hq : post[i]? = some q) (hp : pre[i]? = some p)
    (hzero : ((q : ℚ) - p) / 1000000000 = 0) :
    process_transaction addr sig ⟨some (pre, post), some keys, bt⟩ = none := by
  simp only [process_transaction, hi, hq, hp]
  rw [hzero]
  norm_num

/-- Every transaction `process_transaction` emits has a strictly positive
amount (the `if amount == 0: continue` filter, together with `incoming`
amounts being the positive delta and `outgoing` amounts an absolute
value). -/
theorem process_transaction_amount_pos (addr sig : String) (tx : TxRecord)
    (t : Transaction) (h : process_transaction addr sig tx = some t) :
    0 < t.amount := by
  obtain ⟨m, tr, bt⟩ := tx
  rcases m with _ | ⟨pre, post⟩
  · simp [process_transaction] at h
  rcases tr with _ | keys
  · simp [process_transaction] at h
  rcases hi : keys.findIdx? (fun key => key = addr) with _ | i
  · simp [process_transaction, hi] at h
  rcases hq : post[i]? with _ | q
  · simp [process_transaction, hi, hq] at h
  rcases hp : pre[i]? with _ | p
  · simp [process_transaction, hi, hq, hp] at h
  rcases lt_trichotomy (((q : ℚ) - p) / 1000000000) 0 with hlt | heq | hgt
  · rw [process_transaction_neg addr sig pre post keys bt i p q hi hq hp hlt] at h
    cases Option.some_injective _ h
    simpa using ne_of_lt hlt
  · rw [process_transaction_zero addr sig pre post keys bt i p q hi hq hp heq] at h
    exact absurd h (by simp)
  · rw [process_transaction_pos addr sig pre post keys bt i p q hi hq hp hgt] at h
    cases Option.some_injective _ h
    exact hgt

/-- C8: for a record whose balance arrays carry `pre = p`, `post = q` at
the queried address's position `i`, the delta is `(q - p) / 1e9`; the
entry is classified `incoming` when the delta is positive and `outgoing`
when negative, a zero delta is dropped, and every transaction
`get_wallet_transactions` returns has a strictly positive amount. -/
theorem c8_delta_classification (addr sig : String) (pre post : List ℤ)
    (keys : List String) (bt : Option ℤ) (i : ℕ) (p q : ℤ)
    (sigResp : Option (List String)) (details : String → Option TxRecord)
    (hi : keys.findIdx? (fun key => key = addr) = some i)
    (hq : post[i]? = some q) (hp : pre[i]? = some p) :
    (((q : ℚ) - p) / 1000000000 > 0 →
      process_transaction addr sig ⟨some (pre, post), some keys, bt⟩ =
        some ⟨sig, .incoming, ((q : ℚ) - p) / 1000000000, keys.getD 1 "Unknown",
              addr, bt.getD 0 * 1000⟩) ∧
    (((q : ℚ) - p) / 1000000000 < 0 →
      process_transaction addr sig ⟨some (pre, post), some keys, bt⟩ =
        some ⟨sig, .outgoing, |((q : ℚ) - p) / 1000000000|, addr,
              keys.getD 1 "Unknown", bt.getD 0 * 1000⟩) ∧
    (((q : ℚ) - p) / 1000000000 = 0 →
      process_transaction addr sig ⟨some (pre, post), some keys, bt⟩ = none) ∧
    (∀ t ∈ get_wallet_transactions addr sigResp details, 0 < t.amount) := by
  refine ⟨process_transaction_pos addr sig pre post keys bt i p q hi hq hp,
          process_transaction_neg addr sig pre post keys bt i p q hi hq hp,
          process_transaction_zero addr sig pre post keys bt i p q hi hq hp,
          ?_⟩
  intro t ht
  rcases sigResp with _ | sigs
  · simp [get_wallet_transactions] at ht
  · simp only [get_wallet_transactions] at ht
    rcases List.mem_filterMap.mp ht with ⟨s, _, hbind⟩
    rcases Option.bind_eq_some.mp hbind with ⟨tx, _, hpt⟩
    exact process_transaction_amount_pos addr s tx t hpt

/-- C8 witness: a record moving the queried address from 1 SOL-worth of
lamports to 3 yields an incoming entry of amount 2 with counterparty the
second account key. -/
theorem c8_delta_classification_witness :
    process_transaction "Alice" "sig1"
        ⟨some ([1000000000], [3000000000]), some ["Alice", "Bob"], some 9⟩ =
      some ⟨"sig1", .incoming,
            (((3000000000 : ℤ) : ℚ) - ((1000000000 : ℤ) : ℚ)) / 1000000000,
            "Bob", "Alice", 9000⟩ :=
  (c8_delta_classification "Alice" "sig1" [1000000000] [3000000000]
      ["Alice", "Bob"] (some 9) 0 1000000000 3000000000 none (fun _ => none)
      (by decide) rfl rfl).1 (by norm_num)

/-- C7: `get_wallet_transactions` never raises (it is a total function in
this model): a whole-call failure of the signature listing yields `[]`, a
signature list where every detail fetch fails yields `[]`, and a failure
of one signature's detail fetch removes exactly that signature's
contribution, leaving the rest of the returned list intact. -/
theorem c7_history_failure_isolation (addr s0 : String) (sigs s1 s2 : List String)
    (details : String → Option TxRecord) :
    get_wallet_transactions addr none details = [] ∧
    ((∀ s ∈ sigs, details s = none) →
      get_wallet_transactions addr (some sigs) details = []) ∧
    (details s0 = none →
      get_wallet_transactions addr (some (s1 ++ s0 :: s2)) details =
        get_wallet_transactions addr (some (s1 ++ s2)) details) := by
  refine ⟨rfl, ?_, ?_⟩
  · intro h
    simp only [get_wallet_transactions]
    rw [List.filterMap_eq_nil_iff]
    intro s hs
    rw [h s hs]
    rfl
  · intro h
    simp only [get_wallet_transactions]
    rw [List.filterMap_append, List.filterMap_append, List.filterMap_cons, h]
    rfl

/-- C7 witness: all-failing details give `[]`, and one failing signature
drops exactly its own entry. -/
theorem c7_history_failure_isolation_witness :
    get_wallet_transactions "w" (some ["x", "y", "z"]) (fun _ => none) = [] ∧
    get_wallet_transactions "w" (some (["a"] ++ "b" :: ["c"])) (fun _ => none) =
      get_wallet_transactions "w" (some (["a"] ++ ["c"])) (fun _ => none) :=
  ⟨(c7_history_failure_isolation "w" "b" ["x", "y", "z"] ["a"] ["c"]
      (fun _ => none)).2.1 (fun _ _ => rfl),
   (c7_history_failure_isolation "w" "b" ["x", "y", "z"] ["a"] ["c"]
      (fun _ => none)).2.2 rfl⟩

/-- When every endpoint fails, the endpoint loop returns no value after
trying each endpoint once. -/
theorem tryEndpoints_all_none (net : List (Option ℤ)) (h : ∀ r ∈ net, r = none) :
    tryEndpoints net = (none, net.length) := by
  induction net with
  | nil => rfl
  | cons r rest ih =>
    have hr : r = none := h r (List.mem_cons_self r rest)
    subst hr
    simp only [tryEndpoints]
    rw [ih (fun x hx => h x (List.mem_cons_of_mem _ hx))]
    rfl

/-- A fresh cache hit can only serve the value currently stored for the
address. -/
theorem cache_lookup_eq_some (c : Cache) (addr : String) (now v t v' : ℚ)
    (hc : c addr = some (v, t)) (hl : cache_lookup c addr now = some v') :
    v' = v := by
  unfold cache_lookup at hl
  rw [hc] at hl
  split at hl <;> simp_all

/-- The cache-hit characterization: the lookup of lines 90-93 succeeds
exactly when an entry exists and `now - observedAt < TTL`. -/
theorem cache_lookup_iff (c : Cache) (a : String) (now v : ℚ) :
    cache_lookup c a now = some v ↔
      ∃ t, c a = some (v, t) ∧ now - t < balance_cache_timeout := by
  rcases h : c a with _ | ⟨v', t'⟩
  · simp [cache_lookup, h]
  · simp only [cache_lookup, h]
    constructor
    · intro hl
      split at hl
      · cases Option.some_injective _ hl
        exact ⟨t', rfl, by assumption⟩
      · exact absurd hl (by simp)
    · rintro ⟨t, ht, hfresh⟩
      obtain ⟨rfl, rfl⟩ : v' = v ∧ t' = t := by simpa using ht
      rw [if_pos hfresh]

/-- C1: for a valid address, when every endpoint attempt fails,
`get_wallet_balance` returns the cached value whenever any (possibly
stale) entry exists for the address, and fails with `allEndpointsFailed`
when none does. -/
theorem c1_endpoint_failure_fallback (c : Cache) (addr : String) (now : ℚ)
    (net : List (Option ℤ))
    (hval : validate_solana_address addr = true)
    (hfail : ∀ r ∈ net, r = none) :
    (∀ v t, c addr = some (v, t) →
      (get_wallet_balance c addr now net).result = .ok v) ∧
    (c addr = none →
      (get_wallet_balance c addr now net).result = .error .allEndpointsFailed) := by
  have hnet := tryEndpoints_all_none net hfail
  constructor
  · intro v t hc
    rcases hl : cache_lookup c addr now with _ | v'
    · simp [get_wallet_balance, hl, hval, hnet, hc]
    · have := cache_lookup_eq_some c addr now v t v' hc hl
      subst this
      simp [get_wallet_balance, hl]
  · intro hc
    have hl : cache_lookup c addr now = none := by simp [cache_lookup, hc]
    simp [get_wallet_balance, hl, hval, hnet, hc]

/-- C1 witness: with all three endpoints down, a cached address yields its
cached value and an uncached one fails with `allEndpointsFailed`. -/
theorem c1_endpoint_failure_fallback_witness :
    (get_wallet_balance
        (Cache.put Cache.empty "11111111111111111111111111111111" 7 0)
        "11111111111111111111111111111111" 0 [none, none, none]).result = .ok 7 ∧
    (get_wallet_balance Cache.empty "11111111111111111111111111111111" 0
        [none, none, none]).result = .error .allEndpointsFailed :=
  ⟨(c1_endpoint_failure_fallback
      (Cache.put Cache.empty "11111111111111111111111111111111" 7 0)
      "11111111111111111111111111111111" 0 [none, none, none]
      (by decide) (by decide)).1 7 0 (by simp [Cache.put]),
   (c1_endpoint_failure_fallback Cache.empty
      "11111111111111111111111111111111" 0 [none, none, none]
      (by decide) (by decide)).2 rfl⟩

/-- C6: an entry is fresh iff `now - observedAt < TTL` (the lookup
succeeds exactly when an entry exists and that inequality holds); and
after a `get_wallet_balance` that misses the fresh cache and succeeds
against the network at time `t1`, a second call within the TTL window
(`t2 - t1 < TTL`) returns the identical cached value, changes nothing,
and issues no network request. -/
theorem c6_ttl_freshness (c : Cache) (a : String) (now v : ℚ)
    (c1 : Cache) (t1 t2 : ℚ) (net1 net2 : List (Option ℤ)) (lam : ℤ) (k : ℕ)
    (hval : validate_solana_address a = true)
    (hmiss : cache_lookup c1 a t1 = none)
    (hnet : tryEndpoints net1 = (some lam, k))
    (hwin : t2 - t1 < balance_cache_timeout) :
    (cache_lookup c a now = some v ↔
      ∃ t, c a = some (v, t) ∧ now - t < balance_cache_timeout) ∧
    (get_wallet_balance c1 a t1 net1).result = .ok ((lam : ℚ) / 1000000000) ∧
    get_wallet_balance (get_wallet_balance c1 a t1 net1).cache a t2 net2 =
      ⟨.ok ((lam : ℚ) / 1000000000), (get_wallet_balance c1 a t1 net1).cache, 0⟩ := by
  have hout : get_wallet_balance c1 a t1 net1 =
      ⟨.ok ((lam : ℚ) / 1000000000),
       c1.put a ((lam : ℚ) / 1000000000) t1, k⟩ := by
    simp [get_wallet_balance, hmiss, hval, hnet]
  refine ⟨cache_lookup_iff c a now v, by rw [hout], ?_⟩
  rw [hout]
  have hl2 : cache_lookup (c1.put a ((lam : ℚ) / 1000000000) t1) a t2 =
      some ((lam : ℚ) / 1000000000) := by
    simp [cache_lookup, Cache.put, hwin]
  simp [get_wallet_balance, hl2]

/-- C6 witness: a successful fetch of 2 SOL-worth of lamports at time 0
followed by a call at time 0.25 serves the cache with no network call. -/
theorem c6_ttl_freshness_witness :
    (get_wallet_balance Cache.empty "11111111111111111111111111111111" 0
        [some 2000000000]).result = .ok (((2000000000 : ℤ) : ℚ) / 1000000000) ∧
    get_wallet_balance
        (get_wallet_balance Cache.empty "11111111111111111111111111111111" 0
          [some 2000000000]).cache
        "11111111111111111111111111111111" (1/4) [none] =
      ⟨.ok (((2000000000 : ℤ) : ℚ) / 1000000000),
       (get_wallet_balance Cache.empty "11111111111111111111111111111111" 0
         [some 2000000000]).cache, 0⟩ :=
  ⟨(c6_ttl_freshness Cache.empty "11111111111111111111111111111111" 0 0
      Cache.empty 0 (1/4) [some 2000000000] [none] 2000000000 1
      (by decide) rfl rfl
      (by norm_num [balance_cache_timeout])).2.1,
   (c6_ttl_freshness Cache.empty "11111111111111111111111111111111" 0 0
      Cache.empty 0 (1/4) [some 2000000000] [none] 2000000000 1
      (by decide) rfl rfl
      (by norm_num [balance_cache_timeout])).2.2⟩

/-- Every event `update_wallet` broadcasts carries the wallet's own
address. -/
theorem update_wallet_events_address (now : ℚ) (fetch : String → Option ℚ)
    (w : Wallet) (e : ChangeEvent) (he : e ∈ (update_wallet now fetch w).2) :
    e.address = w.address := by
  rcases hf : fetch w.address with _ | b
  · simp [update_wallet, hf] at he
  · simp only [update_wallet, hf] at he
    split at he <;> simp_all

/-- Wallets at other addresses contribute no event carrying address `a`. -/
theorem events_filter_ne (now : ℚ) (fetch : String → Option ℚ)
    (l : List Wallet) (a : String) (h : ∀ x ∈ l, x.address ≠ a) :
    (l.flatMap (fun w => (update_wallet now fetch w).2)).filter
      (fun e => e.address == a) = [] := by
  induction l with
  | nil => rfl
  | cons x xs ih =>
    rw [List.flatMap_cons, List.filter_append,
        ih (fun y hy => h y (List.mem_cons_of_mem _ hy)), List.append_nil,
        List.filter_eq_nil_iff]
    intro e he
    have hex := update_wallet_events_address now fetch x e he
    simp [hex, h x (List.mem_cons_self x xs)]

/-- C5: in one poll cycle, an active tracked wallet whose fetched balance
equals its recorded `last_balance` is left unchanged and contributes no
event (and no event for its address appears in the cycle's broadcast);
an active wallet whose fetched balance differs gets `last_balance` and
`last_updated` updated and exactly one `balance_update` event for its
address is broadcast. -/
theorem c5_poll_cycle (now : ℚ) (fetch : String → Option ℚ)
    (registry : List Wallet) (w : Wallet) (b : ℚ)
    (hmem : w ∈ registry)
    (hnodup : (registry.map Wallet.address).Nodup)
    (hact : w.is_active = true) :
    (fetch w.address = some w.last_balance →
      update_wallet now fetch w = (w, []) ∧
      (update_wallet_balances now fetch registry).2.filter
        (fun e => e.address == w.address) = []) ∧
    (fetch w.address = some b → b ≠ w.last_balance →
      update_wallet now fetch w =
        ({ w with last_balance := b, last_updated := now },
         [⟨w.address, b, .balance_update⟩]) ∧
      (update_wallet_balances now fetch registry).2.filter
        (fun e => e.address == w.address) = [⟨w.address, b, .balance_update⟩]) := by
  obtain ⟨s, t, rfl⟩ := List.append_of_mem hmem
  have hnd : (w.address :: (s.map Wallet.address ++ t.map Wallet.address)).Nodup := by
    rw [← List.nodup_middle]
    simpa using hnodup
  have hnotin := (List.nodup_cons.mp hnd).1
  have hs : ∀ x ∈ s, x.address ≠ w.address := by
    intro x hx heq
    exact hnotin (List.mem_append_left _ (heq ▸ List.mem_map_of_mem Wallet.address hx))
  have ht : ∀ x ∈ t, x.address ≠ w.address := by
    intro x hx heq
    exact hnotin (List.mem_append_right _ (heq ▸ List.mem_map_of_mem Wallet.address hx))
  have hsf : ∀ x ∈ s.filter (fun w => w.is_active), x.address ≠ w.address :=
    fun x hx => hs x (List.mem_of_mem_filter hx)
  have htf : ∀ x ∈ t.filter (fun w => w.is_active), x.address ≠ w.address :=
    fun x hx => ht x (List.mem_of_mem_filter hx)
  have e1 := events_filter_ne now fetch (s.filter (fun w => w.is_active)) w.address hsf
  have e2 := events_filter_ne now fetch (t.filter (fun w => w.is_active)) w.address htf
  constructor
  · intro hfetch
    have hup : update_wallet now fetch w = (w, []) := by
      simp [update_wallet, hfetch, hasChanged]
    refine ⟨hup, ?_⟩
    simp only [update_wallet_balances]
    rw [List.filter_append, List.filter_cons_of_pos hact, List.flatMap_append,
        List.flatMap_cons, List.filter_append, List.filter_append, e1, e2, hup]
    simp
  · intro hfetch hne
    have hup : update_wallet now fetch w =
        ({ w with last_balance := b, last_updated := now },
         [⟨w.address, b, .balance_update⟩]) := by
      simp [update_wallet, hfetch, hasChanged, hne]
    refine ⟨hup, ?_⟩
    simp only [update_wallet_balances]
    rw [List.filter_append, List.filter_cons_of_pos hact, List.flatMap_append,
        List.flatMap_cons, List.filter_append, List.filter_append, e1, e2, hup]
    simp

/-- C5 witness: one active wallet, fetched balance 2 against recorded 1 →
exactly one `balance_update` event; the unchanged case for the same
wallet with fetch returning 1 emits nothing. -/
theorem c5_poll_cycle_witness :
    (update_wallet_balances 3 (fun _ => some 1) [⟨"w", 1, 0, true⟩]).2.filter
      (fun e => e.address == "w") = [] ∧
    (update_wallet_balances 3 (fun _ => some 2) [⟨"w", 1, 0, true⟩]).2.filter
      (fun e => e.address == "w") = [⟨"w", 2, .balance_update⟩] :=
  ⟨((c5_poll_cycle 3 (fun _ => some 1) [⟨"w", 1, 0, true⟩] ⟨"w", 1, 0, true⟩ 2
      (by simp) (by simp) rfl).1 rfl).2,
   ((c5_poll_cycle 3 (fun _ => some 2) [⟨"w", 1, 0, true⟩] ⟨"w", 1, 0, true⟩ 2
      (by simp) (by simp) rfl).2 rfl (by norm_num)).2⟩

/-- The only cache write `get_wallet_balance` performs is the guarded one
at line 120: any entry present after a call was either already present or
was written for the call's own address after validation succeeded. -/
theorem get_wallet_balance_cache_write (c : Cache) (addr : String) (now : ℚ)
    (net : List (Option ℤ)) (a : String) (e : ℚ × ℚ)
    (h : (get_wallet_balance c addr now net).cache a = some e) :
    c a = some e ∨ (a = addr ∧ validate_solana_address addr = true) := by
  rcases hl : cache_lookup c addr now with _ | v
  case some =>
    left
    simpa [get_wallet_balance, hl] using h
  case none =>
    rcases hv : validate_solana_address addr with _ | _
    · left
      rcases hc : c addr with _ | p <;>
        simpa [get_wallet_balance, hl, hv, hc] using h
    · rcases hnet : tryEndpoints net with ⟨r, n⟩
      rcases r with _ | lam
      · left
        rcases hc : c addr with _ | p <;>
          simpa [get_wallet_balance, hl, hv, hnet, hc] using h
      · have h' : Cache.put c addr ((lam : ℚ) / 1000000000) now a = some e := by
          simpa [get_wallet_balance, hl, hv, hnet] using h
        by_cases ha : a = addr
        · exact Or.inr ⟨ha, rfl⟩
        · left
          simpa [Cache.put, ha] using h'

/-- C10: every address holding an entry in a cache state reachable through
the public interface (a sequence of `get_wallet_balance` calls starting
from the empty cache) satisfies `validate_solana_address`: the only write
is guarded by validation, so an invalid address can never acquire an
entry. -/
theorem c10_cache_keys_valid (c : Cache) (hr : ReachableCache c) :
    ∀ a v t, c a = some (v, t) → validate_solana_address a = true := by
  induction hr with
  | empty =>
    intro a v t h
    exact absurd h (by simp [Cache.empty])
  | fetch c0 addr now net hr0 ih =>
    intro a v t h
    rcases get_wallet_balance_cache_write c0 addr now net a (v, t) h with h' | ⟨rfl, hv⟩
    · exact ih a v t h'
    · exact hv

/-- C10 witness: after one successful fetch from the empty cache, the
single cached key is a validated address. -/
theorem c10_cache_keys_valid_witness :
    validate_solana_address "11111111111111111111111111111111" = true :=
  c10_cache_keys_valid _
    (ReachableCache.fetch Cache.empty "11111111111111111111111111111111" 0
      [some 1000000000] ReachableCache.empty)
    "11111111111111111111111111111111" (((1000000000 : ℤ) : ℚ) / 1000000000) 0
    (by
      have hv : validate_solana_address "11111111111111111111111111111111" = true := by
        decide
      have hl : cache_lookup Cache.empty "11111111111111111111111111111111" 0 = none :=
        rfl
      simp [get_wallet_balance, hl, hv, tryEndpoints, Cache.put])
